import Mathlib

/-!
# Verification of the e-commerce database generator

Shallow embedding of `24091865_Sri_lekha.py`, a single linear script that
generates an SQLite database (`ecommerce.db`) of categories, products,
customers, orders, order items and shipments.

Modelling conventions:

* The script seeds the `random` module and Faker with the constant 100 and
  then consumes pseudo-random values one by one.  Once seeded, both sources
  are deterministic streams, so we model the seeded randomness abstractly as
  a stream `f : Nat → Nat` together with a read position (`Gen` below).
  Every `random.*` call and Faker call consumes stream values in exactly the
  order the Python code performs the calls.
* Money is represented in integer cents.  `round(x, 2)` applied to a value
  that is already an exact number of cents is the identity (`round2c`);
  rounding of a genuinely finer value (the discounted line total, line 216)
  is genuine rounding to the nearest cent with ties to even (`roundDiv`),
  which is Python's `round`.
* Dates are day numbers counted from 2018-01-01 (the earliest date the
  script can generate).  `datetime.now()` (used only for `date_of_birth`,
  line 168) becomes an explicit parameter `today : Int` of the pipeline;
  it is a genuine input of the program that is *not* fixed by the seed.
* Faker-produced strings (names, emails, phones, addresses, words, tracking
  codes) are modelled as the opaque stream value that produced them.
-/

/-- The seeded pseudo-random stream: the underlying stream and the position
of the next value to be consumed. -/
structure Gen where
  f : Nat → Nat
  i : Nat

/-- Consume one pseudo-random value. -/
def Gen.next (g : Gen) : Nat × Gen := (g.f g.i, ⟨g.f, g.i + 1⟩)

/-- `random.randint(a, b)`: a uniform integer in `[a, b]` (one draw). -/
def randint (a b : Nat) (g : Gen) : Nat × Gen :=
  let r := g.next
  (a + r.1 % (b - a + 1), r.2)

/-- `random.choice(l)`: a uniform element of `l` (one draw). -/
def random_choice {α : Type} (l : List α) (d : α) (g : Gen) : α × Gen :=
  let r := g.next
  (l.getD (r.1 % l.length) d, r.2)

/-- Round-to-nearest with ties to even of the fraction `a / b`
(Python's `round` on exact values). -/
def roundDiv (a b : Nat) : Nat :=
  let q := a / b
  let r := a % b
  if 2 * r < b then q
  else if b < 2 * r then q + 1
  else if q % 2 = 0 then q else q + 1

/-- `round(x, 2)` on a quantity that is already an exact number of cents:
the identity.  (Lines 221, 241 and 268 of the script round sums/products of
exact cent amounts.) -/
def round2c (n : Nat) : Nat := n

/-! ## Configuration constants (lines 54-68) -/

def NUM_CUSTOMERS : Nat := 1000
def NUM_CATEGORIES : Nat := 12
def NUM_PRODUCTS : Nat := 300
def NUM_ORDERS : Nat := 1400

/-- `PRICE_MIN = 5.0` in cents. -/
def PRICE_MIN_C : Nat := 500

/-- `PRICE_MAX = 1000.0` in cents. -/
def PRICE_MAX_C : Nat := 100000

def TIERS : List String := ["Bronze", "Silver", "Gold", "Platinum"]

def GENDERS : List String := ["Male", "Female", "Non-binary", "Prefer not to say"]

def CARRIERS : List String := ["DHL", "FedEx", "UPS", "Local"]

def QUALIFIERS : List String := ["Pro", "X", "Plus", "Mini", "Max", "Series"]

def categoryNames : List String :=
  ["Electronics", "Clothing", "Home & Kitchen", "Books", "Toys", "Sports",
   "Beauty", "Groceries", "Automotive", "Office", "Garden", "Health"]

/-- `[(i+1, categories[i]) for i in range(len(categories))]` (line 145). -/
def categoryRows : List (Nat × String) :=
  (List.range categoryNames.length).map (fun i => (i + 1, categoryNames.getD i ""))

/-- The list passed to `random.choice` for the promo code (line 206):
`[None, "NEW10", "FREESHIP", "SUMMER20", None, None]`. -/
def promoPool : List (Option String) :=
  [none, some "NEW10", some "FREESHIP", some "SUMMER20", none, none]

/-! ## Date helpers (lines 34-52)

Dates are day numbers counted from 2018-01-01.  `yearStart y` is the day
number of `y`-01-01 (2020 and 2024 are leap years). -/

def yearStart : Nat → Nat
  | 2018 => 0
  | 2019 => 365
  | 2020 => 730
  | 2021 => 1096
  | 2022 => 1461
  | 2023 => 1826
  | 2024 => 2191
  | _ => 2557

/-- `rand_date(start_year, end_year)` (line 35): a uniform day between
`start_year`-01-01 and `end_year`-12-31 (one draw). -/
def rand_date (sy ey : Nat) (g : Gen) : Nat × Gen :=
  let start := yearStart sy
  let endd := yearStart (ey + 1) - 1
  let r := randint 0 (endd - start) g
  (start + r.1, r.2)

/-- `rand_order_date()` (line 41). -/
def rand_order_date (g : Gen) : Nat × Gen :=
  rand_date 2021 2024 g

/-- `rand_shipment_date(order_date_iso)` (lines 44-52): both `randint`s are
evaluated before `random.choices` picks among them with weights
`[0.8, 0.15, 0.05]` (the last alternative being `None`). -/
def rand_shipment_date (order_date : Option Nat) (g : Gen) : Option Nat × Gen :=
  match order_date with
  | none => (none, g)
  | some od =>
    let ra := randint 0 10 g
    let rb := randint 11 20 ra.2
    let rc := rb.2.next
    if rc.1 % 100 < 80 then (some (od + ra.1), rc.2)
    else if rc.1 % 100 < 95 then (some (od + rb.1), rc.2)
    else (none, rc.2)

/-! ## Records (one per table of the schema, lines 78-136) -/

structure Product where
  product_id : Nat
  name_word : Nat
  name_qualifier : String
  name_number : Nat
  category_id : Nat
  price : Nat
  stock : Nat
deriving DecidableEq, Inhabited

structure Customer where
  customer_id : Nat
  customer_name : Nat
  gender : String
  date_of_birth : Int
  email : Option Nat
  phone_number : Option Nat
  address : Option Nat
  customer_tier : String
  registration_date : Nat
  total_spent : Nat
deriving DecidableEq, Inhabited

structure Order where
  order_id : Nat
  customer_id : Nat
  order_date : Nat
  order_total : Nat
  promo_code : Option String
deriving DecidableEq, Inhabited

structure OrderItem where
  order_id : Nat
  item_no : Nat
  product_id : Nat
  quantity : Nat
  unit_price : Nat
  line_total : Nat
deriving DecidableEq, Inhabited

structure Shipment where
  order_id : Nat
  shipped_date : Option Nat
  delivery_date : Option Nat
  carrier : String
  tracking_number : Nat
deriving DecidableEq, Inhabited

/-! ## Product generation (lines 148-155) -/

/-- One iteration of the product loop: category, name word, qualifier,
3-digit number, price (`round(random.uniform(5.0, 1000.0), 2)`, i.e. some
cent amount in `[500, 100000]`), stock. -/
def genProduct (pid : Nat) (g : Gen) : Product × Gen :=
  let rc := randint 1 NUM_CATEGORIES g
  let rw := rc.2.next
  let rq := random_choice QUALIFIERS "" rw.2
  let rn := randint 100 999 rq.2
  let rp := rn.2.next
  let price := PRICE_MIN_C + rp.1 % (PRICE_MAX_C - PRICE_MIN_C + 1)
  let rs := randint 0 500 rp.2
  (⟨pid, rw.1, rq.1, rn.1, rc.1, price, rs.1⟩, rs.2)

def genProducts (pid k : Nat) (g : Gen) : List Product × Gen :=
  match k with
  | 0 => ([], g)
  | k + 1 =>
    let r := genProduct pid g
    let rest := genProducts (pid + 1) k r.2
    (r.1 :: rest.1, rest.2)

/-! ## Customer generation (lines 163-195) -/

/-- `random.choices(TIERS, weights=[0.5, 0.3, 0.15, 0.05])[0]` (line 172). -/
def pickTier (n : Nat) : String :=
  if n % 100 < 50 then "Bronze"
  else if n % 100 < 80 then "Silver"
  else if n % 100 < 95 then "Gold"
  else "Platinum"

/-- One iteration of the customer loop (lines 165-175).  The date of birth
(line 168) is `datetime.now() - timedelta(days=random.randint(18*365, 70*365))`:
it depends on `today`, the day `datetime.now()` falls on. -/
def genCustomer (today : Int) (cid : Nat) (g : Gen) : Customer × Gen :=
  let rname := g.next
  let rg := g.next.2.next
  let gender := GENDERS.getD (rg.1 % GENDERS.length) ""
  let rdob := randint (18 * 365) (70 * 365) rg.2
  let dob : Int := today - (rdob.1 : Int)
  let remail := rdob.2.next
  let rphone := remail.2.next
  let raddr := rphone.2.next
  let rtier := raddr.2.next
  let tier := pickTier rtier.1
  let rreg := rand_date 2018 2024 rtier.2
  (⟨cid, rname.1, gender, dob, some remail.1, some rphone.1, some raddr.1,
    tier, rreg.1, 0⟩, rreg.2)

def genCustomersFrom (today : Int) (cid k : Nat) (g : Gen) : List Customer × Gen :=
  match k with
  | 0 => ([], g)
  | k + 1 =>
    let r := genCustomer today cid g
    let rest := genCustomersFrom today (cid + 1) k r.2
    (r.1 :: rest.1, rest.2)

/-- `random.sample(range(len(customers)), k)`: `k` draws without
replacement, modelled as repeated uniform selection with removal. -/
def sampleIdx (l : List Nat) (k : Nat) (g : Gen) : List Nat × Gen :=
  match k with
  | 0 => ([], g)
  | k + 1 =>
    let r := g.next
    let j := r.1 % l.length
    let rest := sampleIdx (l.eraseIdx j) k r.2
    (l.getD j 0 :: rest.1, rest.2)

/-- One iteration of the missing-contact loop (lines 179-181):
`col = random.choice([4, 5, 6])` nulls email, phone or address. -/
def applyMissing (cs : List Customer) (idx : Nat) (g : Gen) : List Customer × Gen :=
  let r := g.next
  let c := cs.getD idx default
  let c2 :=
    match r.1 % 3 with
    | 0 => { c with email := none }
    | 1 => { c with phone_number := none }
    | _ => { c with address := none }
  (cs.set idx c2, r.2)

def applyMissingAll (cs : List Customer) (idxs : List Nat) (g : Gen) :
    List Customer × Gen :=
  match idxs with
  | [] => (cs, g)
  | i :: rest =>
    let r := applyMissing cs i g
    applyMissingAll r.1 rest r.2

/-- One iteration of the duplicate-identity loop (lines 186-190):
`src = random.choice(customers)`; copy the name, and with probability 1/2
(`random.random() < 0.5`) also the email. -/
def applyDup (cs : List Customer) (idx : Nat) (g : Gen) : List Customer × Gen :=
  let rsrc := cs.getD (g.next.1 % cs.length) default
  let rcoin := g.next.2.next
  let c := cs.getD idx default
  let c2 := { c with customer_name := rsrc.customer_name }
  let c3 := if rcoin.1 % 100 < 50 then { c2 with email := rsrc.email } else c2
  (cs.set idx c3, rcoin.2)

def applyDupAll (cs : List Customer) (idxs : List Nat) (g : Gen) :
    List Customer × Gen :=
  match idxs with
  | [] => (cs, g)
  | i :: rest =>
    let r := applyDup cs i g
    applyDupAll r.1 rest r.2

/-- The whole customer stage (lines 163-190): generation, then
`int(0.02 * 1000) = 20` missing-contact rows, then `int(0.01 * 1000) = 10`
duplicate-identity rows. -/
def custPhase (today : Int) (g : Gen) : List Customer × Gen :=
  let rc := genCustomersFrom today 1 NUM_CUSTOMERS g
  let rm := sampleIdx (List.range NUM_CUSTOMERS) (2 * NUM_CUSTOMERS / 100) rc.2
  let cs1 := applyMissingAll rc.1 rm.1 rm.2
  let rd := sampleIdx (List.range NUM_CUSTOMERS) (NUM_CUSTOMERS / 100) cs1.2
  applyDupAll cs1.1 rd.1 rd.2

/-! ## Order / order-item / shipment generation (lines 198-248) -/

/-- `random.choices([1,2,3,4], weights=[0.6, 0.25, 0.1, 0.05])[0]` (line 208). -/
def pickNItems (n : Nat) : Nat :=
  if n % 100 < 60 then 1
  else if n % 100 < 85 then 2
  else if n % 100 < 95 then 3
  else 4

/-- `random.choice([0, 0, 0.05, 0.1])` (line 216), in percent. -/
def pickDiscount (n : Nat) : Nat := [0, 0, 5, 10].getD (n % 4) 0

/-- `round(unit_price * qty * (1 - discount), 2)` (line 216) in cents:
`p * q * (100 - d) / 100` rounded to the nearest cent. -/
def lineTotalC (p q d : Nat) : Nat := roundDiv (p * q * (100 - d)) 100

/-- The inner item loop of a base order (lines 211-219). -/
def genItems (prods : List Product) (oid itemNo k : Nat) (g : Gen) :
    List OrderItem × Gen :=
  match k with
  | 0 => ([], g)
  | k + 1 =>
    let rp := random_choice prods default g
    let rq := randint 1 5 rp.2
    let rd := rq.2.next
    let lt := lineTotalC rp.1.price rq.1 (pickDiscount rd.1)
    let rest := genItems prods oid (itemNo + 1) k rd.2
    (⟨oid, itemNo, rp.1.product_id, rq.1, rp.1.price, lt⟩ :: rest.1, rest.2)

/-- The shipment block shared by both order loops (lines 224-227 and
244-247): with probability 0.8 build a shipment with a shipped date, a
delivery date derived from it, a carrier and a tracking code. -/
def genShip (odate oid : Nat) (g : Gen) : List Shipment × Gen :=
  let r := g.next
  if r.1 % 100 < 80 then
    let s1 := rand_shipment_date (some odate) r.2
    let s2 :=
      match s1.1 with
      | some s => rand_shipment_date (some s) s1.2
      | none => ((none : Option Nat), s1.2)
    let rcar := s2.2.next
    let rtrk := rcar.2.next
    ([⟨oid, s1.1, s2.1, CARRIERS.getD (rcar.1 % CARRIERS.length) "", rtrk.1⟩],
     rtrk.2)
  else ([], r.2)

/-- One iteration of the base order loop (lines 203-228). -/
def genOrder (prods : List Product) (oid : Nat) (g : Gen) :
    (Order × List OrderItem × List Shipment) × Gen :=
  let rcust := randint 1 NUM_CUSTOMERS g
  let rdate := rand_order_date rcust.2
  let rpromo := rdate.2.next
  let promo := promoPool.getD (rpromo.1 % promoPool.length) none
  let rn := rpromo.2.next
  let ri := genItems prods oid 1 (pickNItems rn.1) rn.2
  let total := round2c ((ri.1.map OrderItem.line_total).sum)
  let rs := genShip rdate.1 oid ri.2
  ((⟨oid, rcust.1, rdate.1, total, promo⟩, ri.1, rs.1), rs.2)

def genOrdersFrom (prods : List Product) (oid k : Nat) (g : Gen) :
    ((List Order × List OrderItem × List Shipment) × Gen) :=
  match k with
  | 0 => (([], [], []), g)
  | k + 1 =>
    let r := genOrder prods oid g
    let rest := genOrdersFrom prods (oid + 1) k r.2
    ((r.1.1 :: rest.1.1, r.1.2.1 ++ rest.1.2.1, r.1.2.2 ++ rest.1.2.2), rest.2)

/-- One iteration of the duplicate-order loop (lines 232-248):
`row = random.choice(orders)` (the *growing* list), copy customer, date and
promo, add a single quantity-1 item for a fresh product. -/
def genDupe (prods : List Product) (orders : List Order) (oid : Nat) (g : Gen) :
    ((Order × OrderItem × List Shipment) × Gen) :=
  let rrow := random_choice orders default g
  let rprod := random_choice prods default rrow.2
  let qty := 1
  let lt := round2c (rprod.1.price * qty)
  let o : Order := ⟨oid, rrow.1.customer_id, rrow.1.order_date, lt, rrow.1.promo_code⟩
  let it : OrderItem := ⟨oid, 1, rprod.1.product_id, qty, rprod.1.price, lt⟩
  let rs := genShip rrow.1.order_date oid rprod.2
  ((o, it, rs.1), rs.2)

def genDupes (prods : List Product)
    (t : List Order × List OrderItem × List Shipment) (oid k : Nat) (g : Gen) :
    ((List Order × List OrderItem × List Shipment) × Gen) :=
  match k with
  | 0 => (t, g)
  | k + 1 =>
    let r := genDupe prods t.1 oid g
    genDupes prods (t.1 ++ [r.1.1], t.2.1 ++ [r.1.2.1], t.2.2 ++ r.1.2.2)
      (oid + 1) k r.2

/-- The whole order stage: 1400 base orders, then
`max(1, int(0.01 * 1400)) = 14` duplicate-like orders (lines 198-248). -/
def orderPhase (prods : List Product) (g : Gen) :
    ((List Order × List OrderItem × List Shipment) × Gen) :=
  let ro := genOrdersFrom prods 1 NUM_ORDERS g
  genDupes prods ro.1 (NUM_ORDERS + 1) (max 1 (NUM_ORDERS / 100)) ro.2

/-! ## Aggregation of `total_spent` (lines 262-269) -/

/-- The distinct customer ids appearing in `Orders`
(the groups of `SELECT customer_id, SUM(order_total) ... GROUP BY customer_id`). -/
def custIds (os : List Order) : List Nat := (os.map Order.customer_id).dedup

/-- The sum of `order_total` over one customer's orders. -/
def sumFor (os : List Order) (cid : Nat) : Nat :=
  ((os.filter (fun o => o.customer_id == cid)).map Order.order_total).sum

/-- The rows fetched at line 267, one per distinct customer id, paired with
`round(total if total else 0, 2)` (the SQL `SUM` over a nonempty group of
exact cent values, so the rounding is the identity). -/
def custTotals (os : List Order) : List (Nat × Nat) :=
  (custIds os).map (fun c => (c, round2c (sumFor os c)))

/-- One `UPDATE Customers SET total_spent = ? WHERE customer_id = ?`. -/
def applyTotalsOne (cs : List Customer) (p : Nat × Nat) : List Customer :=
  cs.map (fun c => if c.customer_id = p.1 then { c with total_spent := p.2 } else c)

/-- The `executemany` of updates (line 268). -/
def applyTotals (cs : List Customer) (ts : List (Nat × Nat)) : List Customer :=
  ts.foldl applyTotalsOne cs

/-- The effect of the update rows on a single customer record, used to
reason about `applyTotals` row by row. -/
def updC (c : Customer) (p : Nat × Nat) : Customer :=
  if c.customer_id = p.1 then { c with total_spent := p.2 } else c

/-! ## The whole pipeline -/

/-- The generated database. -/
structure DB where
  categories : List (Nat × String)
  products : List Product
  customers : List Customer
  orders : List Order
  order_items : List OrderItem
  shipments : List Shipment
deriving DecidableEq

/-- The whole run of the script: given the seeded random stream `f` (the
seed constant 100 determines it) and the current day `today`
(`datetime.now()`), produce the database contents. -/
def generate (f : Nat → Nat) (today : Int) : DB :=
  let rp := genProducts 1 NUM_PRODUCTS ⟨f, 0⟩
  let rc := custPhase today rp.2
  let ro := orderPhase rp.1 rc.2
  ⟨categoryRows, rp.1, applyTotals rc.1 (custTotals ro.1.1),
   ro.1.1, ro.1.2.1, ro.1.2.2⟩

/-! ## Properties used in the claim statements -/

/-- The order items belonging to order `oid`. -/
def itemsOf (its : List OrderItem) (oid : Nat) : List OrderItem :=
  its.filter (fun it => it.order_id == oid)

/-- The shipment-date well-formedness of one shipment: an absent shipped
date forces an absent delivery date, and a present delivery date is at or
after a present shipped date. -/
def shipOk (sh : Shipment) : Prop :=
  (sh.shipped_date = none → sh.delivery_date = none) ∧
  ∀ dd, sh.delivery_date = some dd →
    ∃ sd, sh.shipped_date = some sd ∧ sd ≤ dd

/-- What a well-formed order of this generator looks like, relative to the
full item list: its total is the rounded sum of its items' line totals, its
customer id is in `[1, NUM_CUSTOMERS]`, its promo code comes from
`promoPool`, and it has at least one item. -/
def OrderGood (its : List OrderItem) (o : Order) : Prop :=
  o.order_total = round2c (((itemsOf its o.order_id).map OrderItem.line_total).sum) ∧
  1 ≤ o.customer_id ∧ o.customer_id ≤ NUM_CUSTOMERS ∧
  o.promo_code ∈ promoPool ∧
  itemsOf its o.order_id ≠ []

/-- What a well-formed order item looks like: it references a catalog
product at that product's price, has quantity in `[1, 5]`, and a line total
of at least 450 cents (= `round(5.00 * 1 * 0.9, 2)`). -/
def ItemGood (prods : List Product) (it : OrderItem) : Prop :=
  (∃ p ∈ prods, it.product_id = p.product_id ∧ it.unit_price = p.price) ∧
  1 ≤ it.quantity ∧ it.quantity ≤ 5 ∧ 450 ≤ it.line_total

/-- Invariant tying the three order-stage tables together when the order
ids are exactly `1, …, m`. -/
def TInv (prods : List Product)
    (t : List Order × List OrderItem × List Shipment) (m : Nat) : Prop :=
  t.1.map Order.order_id = List.range' 1 m ∧
  (∀ it ∈ t.2.1, 1 ≤ it.order_id ∧ it.order_id ≤ m) ∧
  (∀ o ∈ t.1, OrderGood t.2.1 o) ∧
  (∀ it ∈ t.2.1, ItemGood prods it) ∧
  (∀ sh ∈ t.2.2, sh.order_id ∈ t.1.map Order.order_id ∧ shipOk sh)

/-- What a near-duplicate order looks like: it copies customer, date and
promo from an earlier order, and carries exactly one quantity-1 item whose
line total is the whole order total. -/
def DupeGood (prods : List Product) (os : List Order) (its : List OrderItem)
    (o : Order) : Prop :=
  (∃ src ∈ os, src.order_id < o.order_id ∧
    src.customer_id = o.customer_id ∧ src.order_date = o.order_date ∧
    src.promo_code = o.promo_code) ∧
  ∃ it, itemsOf its o.order_id = [it] ∧ it.item_no = 1 ∧ it.quantity = 1 ∧
    (∃ p ∈ prods, it.product_id = p.product_id ∧ it.unit_price = p.price) ∧
    o.order_total = it.line_total

/-! ## Generic list lemmas -/

theorem getD_mem_of_lt {α : Type} (l : List α) (n : Nat) (d : α)
    (h : n < l.length) : l.getD n d ∈ l := by
  rw [List.getD_eq_getElem l d h]
  exact List.getElem_mem h

theorem set_getD_self {α : Type} (l : List α) (i : Nat) (d : α) :
    l.set i (l.getD i d) = l := by
  induction l generalizing i with
  | nil => simp
  | cons a t ih =>
    cases i with
    | zero => simp
    | succ n => simpa using ih n

theorem map_set_frame {α β : Type} [Inhabited α] (fn : α → β) (l : List α)
    (i : Nat) (x : α) (h : fn x = fn (l.getD i default)) :
    (l.set i x).map fn = l.map fn := by
  induction l generalizing i with
  | nil => simp
  | cons a t ih =>
    cases i with
    | zero => simp_all
    | succ n =>
      simp only [List.getD_cons_succ] at h
      simpa using ih n h

theorem getD_set_ne {α : Type} (l : List α) (i j : Nat) (x d : α) (h : j ≠ i) :
    (l.set i x).getD j d = l.getD j d := by
  induction l generalizing i j with
  | nil => simp
  | cons a t ih =>
    cases i with
    | zero =>
      cases j with
      | zero => exact absurd rfl h
      | succ m => simp
    | succ n =>
      cases j with
      | zero => simp
      | succ m => simpa using ih n m (by omega)

theorem sum_ge_of_nonempty (l : List Nat) (c : Nat) (h : l ≠ [])
    (ha : ∀ x ∈ l, c ≤ x) : c ≤ l.sum := by
  cases l with
  | nil => exact absurd rfl h
  | cons a t =>
    have h1 : c ≤ a := ha a (by simp)
    simp only [List.sum_cons]
    omega

/-! ## Rounding lemmas -/

theorem div_le_roundDiv (a b : Nat) : a / b ≤ roundDiv a b := by
  simp only [roundDiv]
  split_ifs <;> omega

theorem lineTotalC_ge (p q d : Nat) (hp : 500 ≤ p) (hq : 1 ≤ q)
    (hd : d ≤ 10) : 450 ≤ lineTotalC p q d := by
  have h90 : 90 ≤ 100 - d := by omega
  have h1 : 45000 ≤ p * q * (100 - d) := by
    calc 45000 = 500 * (1 * 90) := by norm_num
    _ ≤ p * (q * (100 - d)) := Nat.mul_le_mul hp (Nat.mul_le_mul hq h90)
    _ = p * q * (100 - d) := by ring
  have h2 : 450 ≤ p * q * (100 - d) / 100 := by omega
  exact Nat.le_trans h2 (div_le_roundDiv _ _)

/-! ## Draw-helper lemmas -/

theorem randint_le (a b : Nat) (g : Gen) (h : a ≤ b) :
    a ≤ (randint a b g).1 ∧ (randint a b g).1 ≤ b := by
  simp only [randint]
  have hm := Nat.mod_lt ((Gen.next g).1) (show 0 < b - a + 1 by omega)
  omega

theorem random_choice_mem {α : Type} (l : List α) (d : α) (g : Gen)
    (h : l ≠ []) : (random_choice l d g).1 ∈ l := by
  simp only [random_choice]
  exact getD_mem_of_lt _ _ _ (Nat.mod_lt _ (List.length_pos.mpr h))

theorem pickNItems_pos (n : Nat) : 1 ≤ pickNItems n := by
  unfold pickNItems
  split_ifs <;> omega

theorem pickDiscount_le (n : Nat) : pickDiscount n ≤ 10 := by
  have h : n % 4 = 0 ∨ n % 4 = 1 ∨ n % 4 = 2 ∨ n % 4 = 3 := by omega
  unfold pickDiscount
  rcases h with h | h | h | h <;> rw [h] <;> decide

/-! ## Product-stage lemmas -/

theorem genProducts_map_id : ∀ (k pid : Nat) (g : Gen),
    (genProducts pid k g).1.map Product.product_id = List.range' pid k := by
  intro k
  induction k with
  | zero => intro pid g; simp [genProducts]
  | succ k ih =>
    intro pid g
    simp only [genProducts, List.map_cons, List.range'_succ]
    exact congrArg (_ :: ·) (ih (pid + 1) _)

theorem genProducts_length (pid k : Nat) (g : Gen) :
    (genProducts pid k g).1.length = k := by
  have h := congrArg List.length (genProducts_map_id k pid g)
  simpa using h

theorem genProducts_price : ∀ (k pid : Nat) (g : Gen),
    ∀ p ∈ (genProducts pid k g).1, PRICE_MIN_C ≤ p.price := by
  intro k
  induction k with
  | zero => intro pid g; simp [genProducts]
  | succ k ih =>
    intro pid g p hp
    simp only [genProducts, List.mem_cons] at hp
    rcases hp with h | h
    · subst h
      simp only [genProduct]
      exact Nat.le_add_right _ _
    · exact ih _ _ p h

theorem genProduct_f (pid : Nat) (g : Gen) : (genProduct pid g).2.f = g.f := rfl

theorem genProducts_f : ∀ (k pid : Nat) (g : Gen),
    (genProducts pid k g).2.f = g.f := by
  intro k
  induction k with
  | zero => intro pid g; rfl
  | succ k ih => intro pid g; exact (ih (pid + 1) _).trans (genProduct_f pid g)

/-! ## Customer-stage lemmas -/

theorem genCustomersFrom_map_id (t : Int) : ∀ (k cid : Nat) (g : Gen),
    (genCustomersFrom t cid k g).1.map Customer.customer_id = List.range' cid k := by
  intro k
  induction k with
  | zero => intro cid g; simp [genCustomersFrom]
  | succ k ih =>
    intro cid g
    simp only [genCustomersFrom, List.map_cons, List.range'_succ]
    exact congrArg (_ :: ·) (ih (cid + 1) _)

theorem genCustomersFrom_length (t : Int) (cid k : Nat) (g : Gen) :
    (genCustomersFrom t cid k g).1.length = k := by
  have h := congrArg List.length (genCustomersFrom_map_id t k cid g)
  simpa using h

theorem genCustomersFrom_total (t : Int) : ∀ (k cid : Nat) (g : Gen),
    ∀ c ∈ (genCustomersFrom t cid k g).1, c.total_spent = 0 := by
  intro k
  induction k with
  | zero => intro cid g; simp [genCustomersFrom]
  | succ k ih =>
    intro cid g c hc
    simp only [genCustomersFrom, List.mem_cons] at hc
    rcases hc with h | h
    · subst h; rfl
    · exact ih _ _ c h

/-- The stream state after the customer loop does not depend on `today`:
each iteration consumes the same number of draws. -/
theorem genCustomersFrom_snd (t t' : Int) : ∀ (k cid : Nat) (g : Gen),
    (genCustomersFrom t cid k g).2 = (genCustomersFrom t' cid k g).2 := by
  intro k
  induction k with
  | zero => intro cid g; rfl
  | succ k ih =>
    intro cid g
    have hc : (genCustomer t cid g).2 = (genCustomer t' cid g).2 := rfl
    simp only [genCustomersFrom]
    rw [hc]
    exact ih (cid + 1) _

theorem genCustomersFrom_head (t : Int) (cid k : Nat) (g : Gen) :
    (genCustomersFrom t cid (k + 1) g).1.getD 0 default = (genCustomer t cid g).1 := by
  simp [genCustomersFrom]

/-- The date of birth of a generated customer, in terms of the dob draw
(the third stream value the customer iteration consumes). -/
theorem genCustomer_dob (t : Int) (cid : Nat) (g : Gen) :
    (genCustomer t cid g).1.date_of_birth =
      t - ((18 * 365 + g.f (g.i + 2) % (70 * 365 - 18 * 365 + 1) : Nat) : Int) := rfl

/-! ## Sampling and noise-step lemmas -/

theorem sampleIdx_lt (n : Nat) (hn : 0 < n) : ∀ (k : Nat) (l : List Nat) (g : Gen),
    (∀ x ∈ l, x < n) → ∀ x ∈ (sampleIdx l k g).1, x < n := by
  intro k
  induction k with
  | zero => intro l g _; simp [sampleIdx]
  | succ k ih =>
    intro l g hl x hx
    simp only [sampleIdx, List.mem_cons] at hx
    rcases hx with h | h
    · subst h
      by_cases hl0 : l = []
      · subst hl0; simpa using hn
      · exact hl _ (getD_mem_of_lt _ _ _ (Nat.mod_lt _ (List.length_pos.mpr hl0)))
    · exact ih _ _ (fun y hy => hl y (List.mem_of_mem_eraseIdx hy)) x h

theorem applyMissing_map_frame {β : Type} (fn : Customer → β)
    (h1 : ∀ c, fn { c with email := none } = fn c)
    (h2 : ∀ c, fn { c with phone_number := none } = fn c)
    (h3 : ∀ c, fn { c with address := none } = fn c)
    (cs : List Customer) (i : Nat) (g : Gen) :
    (applyMissing cs i g).1.map fn = cs.map fn := by
  simp only [applyMissing]
  apply map_set_frame
  split
  · exact h1 _
  · exact h2 _
  · exact h3 _

theorem applyMissingAll_map_frame {β : Type} (fn : Customer → β)
    (h1 : ∀ c, fn { c with email := none } = fn c)
    (h2 : ∀ c, fn { c with phone_number := none } = fn c)
    (h3 : ∀ c, fn { c with address := none } = fn c) :
    ∀ (idxs : List Nat) (cs : List Customer) (g : Gen),
    (applyMissingAll cs idxs g).1.map fn = cs.map fn := by
  intro idxs
  induction idxs with
  | nil => intro cs g; rfl
  | cons i rest ih =>
    intro cs g
    simp only [applyMissingAll]
    rw [ih]
    exact applyMissing_map_frame fn h1 h2 h3 cs i g

theorem applyDup_map_frame {β : Type} (fn : Customer → β)
    (hupd : ∀ c x e, fn { c with customer_name := x, email := e } = fn c)
    (hname : ∀ c x, fn { c with customer_name := x } = fn c)
    (cs : List Customer) (i : Nat) (g : Gen) :
    (applyDup cs i g).1.map fn = cs.map fn := by
  simp only [applyDup]
  apply map_set_frame
  split
  · exact hupd _ _ _
  · exact hname _ _

theorem applyDupAll_map_frame {β : Type} (fn : Customer → β)
    (hupd : ∀ c x e, fn { c with customer_name := x, email := e } = fn c)
    (hname : ∀ c x, fn { c with customer_name := x } = fn c) :
    ∀ (idxs : List Nat) (cs : List Customer) (g : Gen),
    (applyDupAll cs idxs g).1.map fn = cs.map fn := by
  intro idxs
  induction idxs with
  | nil => intro cs g; rfl
  | cons i rest ih =>
    intro cs g
    simp only [applyDupAll]
    rw [ih]
    exact applyDup_map_frame fn hupd hname cs i g

theorem applyDupAll_getD_not_mem : ∀ (idxs : List Nat) (cs : List Customer)
    (g : Gen) (pos : Nat), pos ∉ idxs →
    (applyDupAll cs idxs g).1.getD pos default = cs.getD pos default := by
  intro idxs
  induction idxs with
  | nil => intro cs g pos _; rfl
  | cons i rest ih =>
    intro cs g pos hpos
    simp only [List.mem_cons, not_or] at hpos
    simp only [applyDupAll]
    rw [ih _ _ pos hpos.2]
    simp only [applyDup]
    exact getD_set_ne _ _ _ _ _ hpos.1

/-- Stream state after the missing-contact loop is independent of the
customer values. -/
theorem applyMissingAll_snd : ∀ (idxs : List Nat) (cs cs' : List Customer) (g : Gen),
    (applyMissingAll cs idxs g).2 = (applyMissingAll cs' idxs g).2 := by
  intro idxs
  induction idxs with
  | nil => intro cs cs' g; rfl
  | cons i rest ih => intro cs cs' g; exact ih _ _ _

/-- Stream state after the duplicate-identity loop is independent of the
customer values. -/
theorem applyDupAll_snd : ∀ (idxs : List Nat) (cs cs' : List Customer) (g : Gen),
    (applyDupAll cs idxs g).2 = (applyDupAll cs' idxs g).2 := by
  intro idxs
  induction idxs with
  | nil => intro cs cs' g; rfl
  | cons i rest ih => intro cs cs' g; exact ih _ _ _

theorem custPhase_snd (t t' : Int) (g : Gen) :
    (custPhase t g).2 = (custPhase t' g).2 := by
  simp only [custPhase]
  rw [genCustomersFrom_snd t t' NUM_CUSTOMERS 1 g]
  rw [applyMissingAll_snd _ (genCustomersFrom t 1 NUM_CUSTOMERS g).1
        (genCustomersFrom t' 1 NUM_CUSTOMERS g).1]
  rw [applyDupAll_snd _
        (applyMissingAll (genCustomersFrom t 1 NUM_CUSTOMERS g).1 _ _).1
        (applyMissingAll (genCustomersFrom t' 1 NUM_CUSTOMERS g).1 _ _).1]

/-! ## Shipment lemmas -/

theorem rand_shipment_date_cases (od : Nat) (g : Gen) :
    (rand_shipment_date (some od) g).1 = none ∨
    ∃ a, (rand_shipment_date (some od) g).1 = some (od + a) := by
  simp only [rand_shipment_date]
  split_ifs
  · right; exact ⟨_, rfl⟩
  · right; exact ⟨_, rfl⟩
  · left; rfl

theorem genShip_ok (odate oid : Nat) (g : Gen) :
    ∀ sh ∈ (genShip odate oid g).1, sh.order_id = oid ∧ shipOk sh := by
  intro sh hsh
  simp only [genShip] at hsh
  split at hsh
  · simp only [List.mem_singleton] at hsh
    subst hsh
    refine ⟨rfl, ?_, ?_⟩
    · intro h
      simp only at h ⊢
      rw [h]
    · intro dd hdd
      simp only at hdd ⊢
      cases h1 : (rand_shipment_date (some odate) (Gen.next g).2).1 with
      | none => rw [h1] at hdd; simp at hdd
      | some s =>
        rw [h1] at hdd
        simp only at hdd
        rcases rand_shipment_date_cases s (rand_shipment_date (some odate) (Gen.next g).2).2
          with h2 | ⟨a, h2⟩
        · rw [h2] at hdd; cases hdd
        · rw [h2] at hdd
          refine ⟨s, rfl, ?_⟩
          cases hdd
          omega
  · cases hsh

/-! ## Order-item lemmas -/

theorem genItems_length (prods : List Product) (oid : Nat) : ∀ (k itemNo : Nat) (g : Gen),
    (genItems prods oid itemNo k g).1.length = k := by
  intro k
  induction k with
  | zero => intro itemNo g; rfl
  | succ k ih => intro itemNo g; simpa [genItems] using ih (itemNo + 1) _

theorem genItems_oid (prods : List Product) (oid : Nat) : ∀ (k itemNo : Nat) (g : Gen),
    ∀ it ∈ (genItems prods oid itemNo k g).1, it.order_id = oid := by
  intro k
  induction k with
  | zero => intro itemNo g; simp [genItems]
  | succ k ih =>
    intro itemNo g it hit
    simp only [genItems, List.mem_cons] at hit
    rcases hit with h | h
    · subst h; rfl
    · exact ih _ _ it h

theorem genItems_good (prods : List Product) (hp : prods ≠ [])
    (hprice : ∀ p ∈ prods, PRICE_MIN_C ≤ p.price) (oid : Nat) :
    ∀ (k itemNo : Nat) (g : Gen),
    ∀ it ∈ (genItems prods oid itemNo k g).1, ItemGood prods it := by
  intro k
  induction k with
  | zero => intro itemNo g; simp [genItems]
  | succ k ih =>
    intro itemNo g it hit
    simp only [genItems, List.mem_cons] at hit
    rcases hit with h | h
    · subst h
      have hmem := random_choice_mem prods default g hp
      have hq := randint_le 1 5 (random_choice prods default g).2 (by omega)
      refine ⟨⟨(random_choice prods default g).1, hmem, rfl, rfl⟩, hq.1, hq.2, ?_⟩
      exact lineTotalC_ge _ _ _ (hprice _ hmem) hq.1 (pickDiscount_le _)
    · exact ih _ _ it h

/-! ## Single-order lemma -/

theorem genOrder_spec (prods : List Product) (hp : prods ≠ [])
    (hprice : ∀ p ∈ prods, PRICE_MIN_C ≤ p.price) (oid : Nat) (g : Gen) :
    (genOrder prods oid g).1.1.order_id = oid ∧
    (∀ it ∈ (genOrder prods oid g).1.2.1, it.order_id = oid) ∧
    (genOrder prods oid g).1.1.order_total =
      round2c (((genOrder prods oid g).1.2.1.map OrderItem.line_total).sum) ∧
    1 ≤ (genOrder prods oid g).1.1.customer_id ∧
    (genOrder prods oid g).1.1.customer_id ≤ NUM_CUSTOMERS ∧
    (genOrder prods oid g).1.1.promo_code ∈ promoPool ∧
    (genOrder prods oid g).1.2.1 ≠ [] ∧
    (∀ it ∈ (genOrder prods oid g).1.2.1, ItemGood prods it) ∧
    (∀ sh ∈ (genOrder prods oid g).1.2.2, sh.order_id = oid ∧ shipOk sh) := by
  refine ⟨rfl, ?_, rfl, ?_, ?_, ?_, ?_, ?_, ?_⟩
  · exact genItems_oid prods oid _ _ _
  · exact (randint_le 1 NUM_CUSTOMERS g (by norm_num [NUM_CUSTOMERS])).1
  · exact (randint_le 1 NUM_CUSTOMERS g (by norm_num [NUM_CUSTOMERS])).2
  · exact getD_mem_of_lt _ _ _ (Nat.mod_lt _ (by norm_num [promoPool]))
  · apply List.ne_nil_of_length_pos
    simp only [genOrder]
    rw [genItems_length]
    exact pickNItems_pos _
  · exact genItems_good prods hp hprice oid _ _ _
  · exact genShip_ok _ _ _

/-! ## itemsOf helpers -/

theorem itemsOf_append (its its2 : List OrderItem) (oid : Nat) :
    itemsOf (its ++ its2) oid = itemsOf its oid ++ itemsOf its2 oid :=
  List.filter_append _ _

theorem itemsOf_eq_self (its : List OrderItem) (oid : Nat)
    (h : ∀ it ∈ its, it.order_id = oid) : itemsOf its oid = its := by
  rw [itemsOf, List.filter_eq_self]
  intro it hit
  simp [h it hit]

theorem itemsOf_eq_nil (its : List OrderItem) (oid : Nat)
    (h : ∀ it ∈ its, it.order_id ≠ oid) : itemsOf its oid = [] := by
  rw [itemsOf, List.filter_eq_nil_iff]
  intro it hit
  simp [h it hit]

/-! ## Base order-loop invariant -/

theorem genOrdersFrom_inv (prods : List Product) (hp : prods ≠ [])
    (hprice : ∀ p ∈ prods, PRICE_MIN_C ≤ p.price) :
    ∀ (k oid : Nat) (g : Gen),
    (genOrdersFrom prods oid k g).1.1.map Order.order_id = List.range' oid k ∧
    (∀ it ∈ (genOrdersFrom prods oid k g).1.2.1,
        oid ≤ it.order_id ∧ it.order_id < oid + k) ∧
    (∀ o ∈ (genOrdersFrom prods oid k g).1.1,
        OrderGood (genOrdersFrom prods oid k g).1.2.1 o) ∧
    (∀ it ∈ (genOrdersFrom prods oid k g).1.2.1, ItemGood prods it) ∧
    (∀ sh ∈ (genOrdersFrom prods oid k g).1.2.2,
        sh.order_id ∈ (genOrdersFrom prods oid k g).1.1.map Order.order_id ∧
        shipOk sh) := by
  intro k
  induction k with
  | zero =>
    intro oid g
    simp [genOrdersFrom]
  | succ k ih =>
    intro oid g
    obtain ⟨h1, h2, h3, h4, h5, h6, h7, h8, h9⟩ := genOrder_spec prods hp hprice oid g
    obtain ⟨i1, i2, i3, i4, i5⟩ := ih (oid + 1) (genOrder prods oid g).2
    have hrest_id : ∀ o' ∈ (genOrdersFrom prods (oid + 1) k (genOrder prods oid g).2).1.1,
        oid + 1 ≤ o'.order_id ∧ o'.order_id < oid + 1 + k := by
      intro o' ho'
      have hmm : o'.order_id ∈
          (genOrdersFrom prods (oid + 1) k (genOrder prods oid g).2).1.1.map Order.order_id :=
        List.mem_map_of_mem _ ho'
      rw [i1] at hmm
      exact List.mem_range'_1.mp hmm
    simp only [genOrdersFrom]
    refine ⟨?_, ?_, ?_, ?_, ?_⟩
    · simp only [List.map_cons, h1, i1, List.range'_succ]
    · intro it hit
      rcases List.mem_append.mp hit with h | h
      · have := h2 it h
        omega
      · have := i2 it h
        omega
    · intro o ho
      rcases List.mem_cons.mp ho with h | h
      · subst h
        have e1 : itemsOf ((genOrder prods oid g).1.2.1 ++
            (genOrdersFrom prods (oid + 1) k (genOrder prods oid g).2).1.2.1)
            (genOrder prods oid g).1.1.order_id = (genOrder prods oid g).1.2.1 := by
          rw [h1, itemsOf_append, itemsOf_eq_self _ _ h2, itemsOf_eq_nil, List.append_nil]
          intro it hit
          have := (i2 it hit).1
          omega
        refine ⟨?_, h4, h5, h6, ?_⟩
        · rw [e1]
          exact h3
        · rw [e1]
          exact h7
      · have hgood := i3 o h
        have hne : (genOrder prods oid g).1.1.order_id ≠ o.order_id := by
          have := hrest_id o h
          omega
        have e2 : itemsOf ((genOrder prods oid g).1.2.1 ++
            (genOrdersFrom prods (oid + 1) k (genOrder prods oid g).2).1.2.1)
            o.order_id =
            itemsOf (genOrdersFrom prods (oid + 1) k (genOrder prods oid g).2).1.2.1
              o.order_id := by
          rw [itemsOf_append, itemsOf_eq_nil ((genOrder prods oid g).1.2.1), List.nil_append]
          intro it hit
          rw [h2 it hit]
          have := hrest_id o h
          omega
        obtain ⟨g1, g2, g3, g4, g5⟩ := hgood
        exact ⟨by rw [e2]; exact g1, g2, g3, g4, by rw [e2]; exact g5⟩
    · intro it hit
      rcases List.mem_append.mp hit with h | h
      · exact h8 it h
      · exact i4 it h
    · intro sh hsh
      rcases List.mem_append.mp hsh with h | h
      · refine ⟨?_, (h9 sh h).2⟩
        simp [List.map_cons, h1, (h9 sh h).1]
      · refine ⟨?_, (i5 sh h).2⟩
        simp only [List.map_cons, List.mem_cons]
        right
        exact (i5 sh h).1

theorem genOrdersFrom_TInv (prods : List Product) (hp : prods ≠ [])
    (hprice : ∀ p ∈ prods, PRICE_MIN_C ≤ p.price) (k : Nat) (g : Gen) :
    TInv prods (genOrdersFrom prods 1 k g).1 k := by
  obtain ⟨h1, h2, h3, h4, h5⟩ := genOrdersFrom_inv prods hp hprice k 1 g
  refine ⟨h1, ?_, h3, h4, h5⟩
  intro it hit
  have := h2 it hit
  omega

/-! ## Duplicate-order lemmas -/

theorem genDupe_spec (prods : List Product) (hp : prods ≠ [])
    (hprice : ∀ p ∈ prods, PRICE_MIN_C ≤ p.price)
    (orders : List Order) (ho : orders ≠ []) (oid : Nat) (g : Gen) :
    (genDupe prods orders oid g).1.1.order_id = oid ∧
    (∃ src ∈ orders,
      src.customer_id = (genDupe prods orders oid g).1.1.customer_id ∧
      src.order_date = (genDupe prods orders oid g).1.1.order_date ∧
      src.promo_code = (genDupe prods orders oid g).1.1.promo_code) ∧
    (genDupe prods orders oid g).1.2.1.order_id = oid ∧
    (genDupe prods orders oid g).1.2.1.item_no = 1 ∧
    (genDupe prods orders oid g).1.2.1.quantity = 1 ∧
    (∃ p ∈ prods, (genDupe prods orders oid g).1.2.1.product_id = p.product_id ∧
      (genDupe prods orders oid g).1.2.1.unit_price = p.price) ∧
    (genDupe prods orders oid g).1.1.order_total =
      (genDupe prods orders oid g).1.2.1.line_total ∧
    PRICE_MIN_C ≤ (genDupe prods orders oid g).1.2.1.line_total ∧
    (∀ sh ∈ (genDupe prods orders oid g).1.2.2, sh.order_id = oid ∧ shipOk sh) := by
  refine ⟨rfl, ⟨(random_choice orders default g).1, random_choice_mem orders default g ho,
    rfl, rfl, rfl⟩, rfl, rfl, rfl, ?_, rfl, ?_, ?_⟩
  · exact ⟨(random_choice prods default (random_choice orders default g).2).1,
      random_choice_mem _ _ _ hp, rfl, rfl⟩
  · have := hprice _ (random_choice_mem prods default (random_choice orders default g).2 hp)
    simpa [genDupe, round2c] using this
  · exact genShip_ok _ _ _

theorem TInv_extend (prods : List Product) (hp : prods ≠ [])
    (hprice : ∀ p ∈ prods, PRICE_MIN_C ≤ p.price)
    (t : List Order × List OrderItem × List Shipment) (m : Nat) (g : Gen)
    (ht : TInv prods t m) (hm : 0 < m) :
    TInv prods (t.1 ++ [(genDupe prods t.1 (m + 1) g).1.1],
      t.2.1 ++ [(genDupe prods t.1 (m + 1) g).1.2.1],
      t.2.2 ++ (genDupe prods t.1 (m + 1) g).1.2.2) (m + 1) := by
  obtain ⟨t1, t2, t3, t4, t5⟩ := ht
  have hlen : t.1.length = m := by
    have := congrArg List.length t1
    simpa using this
  have ho : t.1 ≠ [] := List.ne_nil_of_length_pos (by omega)
  obtain ⟨d1, ⟨src, hsrc, dc, dd, dp⟩, e1, e2, e3, ⟨p, hpmem, e4, e5⟩, e6, e7, d9⟩ :=
    genDupe_spec prods hp hprice t.1 ho (m + 1) g
  have hoid_le : ∀ o ∈ t.1, o.order_id ≤ m := by
    intro o hmem
    have hmm : o.order_id ∈ t.1.map Order.order_id := List.mem_map_of_mem _ hmem
    rw [t1] at hmm
    have := List.mem_range'_1.mp hmm
    omega
  have hnil : itemsOf t.2.1 (m + 1) = [] := by
    apply itemsOf_eq_nil
    intro it hit
    have := t2 it hit
    omega
  have hself : itemsOf [(genDupe prods t.1 (m + 1) g).1.2.1] (m + 1) =
      [(genDupe prods t.1 (m + 1) g).1.2.1] := by
    apply itemsOf_eq_self
    intro it hit
    rw [List.mem_singleton] at hit
    subst hit
    exact e1
  refine ⟨?_, ?_, ?_, ?_, ?_⟩
  · have h11 : 1 + 1 * m = m + 1 := by omega
    show List.map _ (t.1 ++ _) = _
    rw [List.map_append, t1, List.range'_concat, h11]
    simp [d1]
  · intro it hit
    rcases List.mem_append.mp hit with h | h
    · have := t2 it h
      omega
    · rw [List.mem_singleton] at h
      subst h
      rw [e1]
      omega
  · intro o hmem
    rcases List.mem_append.mp hmem with h | h
    · obtain ⟨g1, g2, g3, g4, g5⟩ := t3 o h
      have e : itemsOf (t.2.1 ++ [(genDupe prods t.1 (m + 1) g).1.2.1]) o.order_id =
          itemsOf t.2.1 o.order_id := by
        rw [itemsOf_append, itemsOf_eq_nil [(genDupe prods t.1 (m + 1) g).1.2.1],
          List.append_nil]
        intro it hit
        rw [List.mem_singleton] at hit
        subst hit
        rw [e1]
        have := hoid_le o h
        omega
      exact ⟨by rw [e]; exact g1, g2, g3, g4, by rw [e]; exact g5⟩
    · rw [List.mem_singleton] at h
      subst h
      have e : itemsOf (t.2.1 ++ [(genDupe prods t.1 (m + 1) g).1.2.1])
          (genDupe prods t.1 (m + 1) g).1.1.order_id =
          [(genDupe prods t.1 (m + 1) g).1.2.1] := by
        rw [d1, itemsOf_append, hnil, hself, List.nil_append]
      obtain ⟨s1, s2, s3, s4, s5⟩ := t3 src hsrc
      refine ⟨?_, ?_, ?_, ?_, ?_⟩
      · rw [e]
        simpa [round2c] using e6
      · rw [← dc]
        exact s2
      · rw [← dc]
        exact s3
      · rw [← dp]
        exact s4
      · rw [e]
        simp
  · intro it hit
    rcases List.mem_append.mp hit with h | h
    · exact t4 it h
    · rw [List.mem_singleton] at h
      subst h
      refine ⟨⟨p, hpmem, e4, e5⟩, ?_, ?_, ?_⟩
      · rw [e3]
      · rw [e3]
        omega
      · have h500 : PRICE_MIN_C = 500 := rfl
        rw [h500] at e7
        omega
  · intro sh hsh
    rcases List.mem_append.mp hsh with h | h
    · refine ⟨?_, (t5 sh h).2⟩
      rw [List.map_append]
      exact List.mem_append_left _ (t5 sh h).1
    · refine ⟨?_, (d9 sh h).2⟩
      rw [List.map_append]
      apply List.mem_append_right
      simp [d1, (d9 sh h).1]

theorem genDupes_inv (prods : List Product) (hp : prods ≠ [])
    (hprice : ∀ p ∈ prods, PRICE_MIN_C ≤ p.price) :
    ∀ (k : Nat) (t : List Order × List OrderItem × List Shipment) (m : Nat) (g : Gen),
    TInv prods t m → 0 < m →
    TInv prods (genDupes prods t (m + 1) k g).1 (m + k) ∧
    ∃ no ni,
      (genDupes prods t (m + 1) k g).1.1 = t.1 ++ no ∧
      (genDupes prods t (m + 1) k g).1.2.1 = t.2.1 ++ ni ∧
      (∀ it ∈ ni, m + 1 ≤ it.order_id) ∧
      (∀ o ∈ no, m + 1 ≤ o.order_id ∧
        DupeGood prods (genDupes prods t (m + 1) k g).1.1
          (genDupes prods t (m + 1) k g).1.2.1 o) := by
  intro k
  induction k with
  | zero =>
    intro t m g ht hm
    refine ⟨by simpa using ht, [], [], by simp [genDupes], by simp [genDupes],
      by simp, by simp⟩
  | succ k ih =>
    intro t m g ht hm
    have hstep : genDupes prods t (m + 1) (k + 1) g =
        genDupes prods (t.1 ++ [(genDupe prods t.1 (m + 1) g).1.1],
          t.2.1 ++ [(genDupe prods t.1 (m + 1) g).1.2.1],
          t.2.2 ++ (genDupe prods t.1 (m + 1) g).1.2.2) (m + 1 + 1) k
          (genDupe prods t.1 (m + 1) g).2 := rfl
    obtain ⟨t1, t2, t3, t4, t5⟩ := ht
    have hlen : t.1.length = m := by
      have := congrArg List.length t1
      simpa using this
    have ho : t.1 ≠ [] := List.ne_nil_of_length_pos (by omega)
    obtain ⟨d1, ⟨src, hsrc, dc, dd, dp⟩, e1, e2, e3, ⟨p, hpmem, e4, e5⟩, e6, e7, d9⟩ :=
      genDupe_spec prods hp hprice t.1 ho (m + 1) g
    have ht2 := TInv_extend prods hp hprice t m g ⟨t1, t2, t3, t4, t5⟩ hm
    obtain ⟨j1, no', ni', j2, j3, j4, j5⟩ :=
      ih (t.1 ++ [(genDupe prods t.1 (m + 1) g).1.1],
          t.2.1 ++ [(genDupe prods t.1 (m + 1) g).1.2.1],
          t.2.2 ++ (genDupe prods t.1 (m + 1) g).1.2.2) (m + 1)
        (genDupe prods t.1 (m + 1) g).2 ht2 (Nat.succ_pos m)
    rw [hstep]
    have harith : m + 1 + k = m + (k + 1) := by omega
    refine ⟨by rw [← harith]; exact j1, (genDupe prods t.1 (m + 1) g).1.1 :: no',
      (genDupe prods t.1 (m + 1) g).1.2.1 :: ni', ?_, ?_, ?_, ?_⟩
    · rw [j2]
      simp [List.append_assoc]
    · rw [j3]
      simp [List.append_assoc]
    · intro it hit
      rcases List.mem_cons.mp hit with h | h
      · subst h
        rw [e1]
      · have := j4 it h
        omega
    · intro o hmem
      rcases List.mem_cons.mp hmem with h | h
      · subst h
        refine ⟨by rw [d1], ⟨src, ?_, ?_, dc, dd, dp⟩, ?_⟩
        · rw [j2]
          exact List.mem_append_left _ (List.mem_append_left _ hsrc)
        · have hmm : src.order_id ∈ t.1.map Order.order_id := List.mem_map_of_mem _ hsrc
          rw [t1] at hmm
          have := List.mem_range'_1.mp hmm
          rw [d1]
          omega
        · refine ⟨(genDupe prods t.1 (m + 1) g).1.2.1, ?_, e2, e3, ⟨p, hpmem, e4, e5⟩, e6⟩
          have hnil : itemsOf t.2.1 (m + 1) = [] := by
            apply itemsOf_eq_nil
            intro it hit
            have := t2 it hit
            omega
          have hself : itemsOf [(genDupe prods t.1 (m + 1) g).1.2.1] (m + 1) =
              [(genDupe prods t.1 (m + 1) g).1.2.1] := by
            apply itemsOf_eq_self
            intro it hit
            rw [List.mem_singleton] at hit
            subst hit
            exact e1
          have hnil2 : itemsOf ni' (m + 1) = [] := by
            apply itemsOf_eq_nil
            intro it hit
            have := j4 it hit
            omega
          rw [j3, d1, itemsOf_append, itemsOf_append, hnil, hself, hnil2,
            List.nil_append, List.append_nil]
      · have := j5 o h
        refine ⟨by omega, this.2⟩

/-! ## Aggregation lemmas -/

theorem applyTotalsOne_eq (cs : List Customer) (p : Nat × Nat) :
    applyTotalsOne cs p = cs.map (fun c => updC c p) := rfl

theorem applyTotals_eq_map : ∀ (ts : List (Nat × Nat)) (cs : List Customer),
    applyTotals cs ts = cs.map (fun c => ts.foldl updC c) := by
  intro ts
  induction ts with
  | nil =>
    intro cs
    show cs = _
    simp
  | cons p rest ih =>
    intro cs
    show applyTotals (applyTotalsOne cs p) rest = _
    rw [ih (applyTotalsOne cs p), applyTotalsOne_eq, List.map_map]
    rfl

theorem applyTotals_length (cs : List Customer) (ts : List (Nat × Nat)) :
    (applyTotals cs ts).length = cs.length := by
  rw [applyTotals_eq_map]
  exact List.length_map _ _

theorem updC_id (c : Customer) (p : Nat × Nat) :
    (updC c p).customer_id = c.customer_id := by
  unfold updC
  split <;> rfl

theorem foldl_updC_id : ∀ (ts : List (Nat × Nat)) (c : Customer),
    (ts.foldl updC c).customer_id = c.customer_id := by
  intro ts
  induction ts with
  | nil => intro c; rfl
  | cons p rest ih =>
    intro c
    show (rest.foldl updC (updC c p)).customer_id = _
    rw [ih (updC c p), updC_id]

theorem foldl_updC_not_mem : ∀ (ts : List (Nat × Nat)) (c : Customer),
    c.customer_id ∉ ts.map Prod.fst → ts.foldl updC c = c := by
  intro ts
  induction ts with
  | nil => intro c _; rfl
  | cons p rest ih =>
    intro c hc
    simp only [List.map_cons, List.mem_cons, not_or] at hc
    show rest.foldl updC (updC c p) = c
    have h1 : updC c p = c := by
      unfold updC
      rw [if_neg hc.1]
    rw [h1]
    exact ih c hc.2

theorem foldl_updC_mem : ∀ (ts : List (Nat × Nat)) (c : Customer) (v : Nat),
    (ts.map Prod.fst).Nodup → (c.customer_id, v) ∈ ts →
    (ts.foldl updC c).total_spent = v := by
  intro ts
  induction ts with
  | nil => intro c v _ h; cases h
  | cons p rest ih =>
    intro c v hnd hmem
    rw [List.map_cons] at hnd
    have hnd2 := List.nodup_cons.mp hnd
    rcases List.mem_cons.mp hmem with h | h
    · have hc : c.customer_id = p.1 := by rw [← h]
      have hv : v = p.2 := by rw [← h]
      show (rest.foldl updC (updC c p)).total_spent = v
      have h1 : updC c p = { c with total_spent := p.2 } := by
        unfold updC
        rw [if_pos hc]
      rw [h1]
      have h2 : ({ c with total_spent := p.2 } : Customer).customer_id ∉
          rest.map Prod.fst := by
        show c.customer_id ∉ rest.map Prod.fst
        rw [hc]
        exact hnd2.1
      rw [foldl_updC_not_mem rest _ h2, hv]
    · by_cases hca : c.customer_id = p.1
      · exfalso
        apply hnd2.1
        rw [← hca]
        exact List.mem_map_of_mem Prod.fst h
      · show (rest.foldl updC (updC c p)).total_spent = v
        have h1 : updC c p = c := by
          unfold updC
          rw [if_neg hca]
        rw [h1]
        exact ih c v hnd2.2 h

theorem custTotals_fst (os : List Order) :
    (custTotals os).map Prod.fst = custIds os := by
  rw [custTotals, List.map_map]
  exact List.map_id _

theorem custTotals_nodup (os : List Order) :
    ((custTotals os).map Prod.fst).Nodup := by
  rw [custTotals_fst]
  exact List.nodup_dedup _

theorem sumFor_eq_zero (os : List Order) (cid : Nat)
    (h : cid ∉ os.map Order.customer_id) : sumFor os cid = 0 := by
  rw [sumFor]
  have he : os.filter (fun o => o.customer_id == cid) = [] := by
    rw [List.filter_eq_nil_iff]
    intro o ho
    simp only [beq_iff_eq]
    intro hq
    exact h (hq ▸ List.mem_map_of_mem Order.customer_id ho)
  rw [he]
  rfl

theorem applyTotals_spec (cs : List Customer) (os : List Order)
    (h0 : ∀ c ∈ cs, c.total_spent = 0) :
    ∀ c ∈ applyTotals cs (custTotals os),
      c.total_spent = round2c (sumFor os c.customer_id) := by
  intro c hc
  rw [applyTotals_eq_map] at hc
  obtain ⟨c0, hc0, hmap⟩ := List.mem_map.mp hc
  by_cases hmem : c0.customer_id ∈ custIds os
  · have hpair : (c0.customer_id, round2c (sumFor os c0.customer_id)) ∈ custTotals os :=
      List.mem_map_of_mem _ hmem
    have hv := foldl_updC_mem (custTotals os) c0 _ (custTotals_nodup os) hpair
    rw [← hmap]
    rw [show ((custTotals os).foldl updC c0).customer_id = c0.customer_id from
      foldl_updC_id _ _]
    exact hv
  · have hni : c0.customer_id ∉ (custTotals os).map Prod.fst := by
      rw [custTotals_fst]
      exact hmem
    have heq := foldl_updC_not_mem (custTotals os) c0 hni
    rw [← hmap]
    show ((custTotals os).foldl updC c0).total_spent = _
    rw [heq]
    have hno : c0.customer_id ∉ os.map Order.customer_id :=
      fun hcon => hmem (List.mem_dedup.mpr hcon)
    rw [h0 c0 hc0, sumFor_eq_zero os _ hno]
    rfl

theorem applyTotals_map_id (cs : List Customer) (ts : List (Nat × Nat)) :
    (applyTotals cs ts).map Customer.customer_id = cs.map Customer.customer_id := by
  rw [applyTotals_eq_map, List.map_map]
  apply List.map_congr_left
  intro c _
  exact foldl_updC_id ts c

/-! ## Customer-phase lemmas -/

theorem custPhase_map_id (t : Int) (g : Gen) :
    (custPhase t g).1.map Customer.customer_id = List.range' 1 NUM_CUSTOMERS := by
  simp only [custPhase]
  rw [applyDupAll_map_frame Customer.customer_id (fun c x e => rfl) (fun c x => rfl),
    applyMissingAll_map_frame Customer.customer_id (fun c => rfl) (fun c => rfl)
      (fun c => rfl)]
  exact genCustomersFrom_map_id t NUM_CUSTOMERS 1 g

theorem custPhase_length (t : Int) (g : Gen) :
    (custPhase t g).1.length = NUM_CUSTOMERS := by
  have := congrArg List.length (custPhase_map_id t g)
  simpa using this

theorem custPhase_map_total (t : Int) (g : Gen) :
    (custPhase t g).1.map Customer.total_spent =
      (genCustomersFrom t 1 NUM_CUSTOMERS g).1.map Customer.total_spent := by
  simp only [custPhase]
  rw [applyDupAll_map_frame Customer.total_spent (fun c x e => rfl) (fun c x => rfl),
    applyMissingAll_map_frame Customer.total_spent (fun c => rfl) (fun c => rfl)
      (fun c => rfl)]

theorem custPhase_total (t : Int) (g : Gen) :
    ∀ c ∈ (custPhase t g).1, c.total_spent = 0 := by
  intro c hc
  have h1 : c.total_spent ∈ (custPhase t g).1.map Customer.total_spent :=
    List.mem_map_of_mem _ hc
  rw [custPhase_map_total] at h1
  obtain ⟨c0, hc0, hv⟩ := List.mem_map.mp h1
  rw [← hv]
  exact genCustomersFrom_total t NUM_CUSTOMERS 1 g c0 hc0

theorem custPhase_map_dob (t : Int) (g : Gen) :
    (custPhase t g).1.map Customer.date_of_birth =
      (genCustomersFrom t 1 NUM_CUSTOMERS g).1.map Customer.date_of_birth := by
  simp only [custPhase]
  rw [applyDupAll_map_frame Customer.date_of_birth (fun c x e => rfl) (fun c x => rfl),
    applyMissingAll_map_frame Customer.date_of_birth (fun c => rfl) (fun c => rfl)
      (fun c => rfl)]

theorem foldl_updC_dob : ∀ (ts : List (Nat × Nat)) (c : Customer),
    (ts.foldl updC c).date_of_birth = c.date_of_birth := by
  intro ts
  induction ts with
  | nil => intro c; rfl
  | cons p rest ih =>
    intro c
    show (rest.foldl updC (updC c p)).date_of_birth = _
    rw [ih (updC c p)]
    unfold updC
    split <;> rfl

theorem applyTotals_map_dob (cs : List Customer) (ts : List (Nat × Nat)) :
    (applyTotals cs ts).map Customer.date_of_birth = cs.map Customer.date_of_birth := by
  rw [applyTotals_eq_map, List.map_map]
  apply List.map_congr_left
  intro c _
  exact foldl_updC_dob ts c

/-! ## Whole-pipeline helper lemmas -/

theorem generate_products_def (f : Nat → Nat) (t : Int) :
    (generate f t).products = (genProducts 1 NUM_PRODUCTS ⟨f, 0⟩).1 := rfl

theorem generate_customers_def (f : Nat → Nat) (t : Int) :
    (generate f t).customers =
      applyTotals (custPhase t (genProducts 1 NUM_PRODUCTS ⟨f, 0⟩).2).1
        (custTotals (orderPhase (genProducts 1 NUM_PRODUCTS ⟨f, 0⟩).1
          (custPhase t (genProducts 1 NUM_PRODUCTS ⟨f, 0⟩).2).2).1.1) := by
  simp only [generate]

theorem generate_orders_def (f : Nat → Nat) (t : Int) :
    (generate f t).orders = (orderPhase (genProducts 1 NUM_PRODUCTS ⟨f, 0⟩).1
      (custPhase t (genProducts 1 NUM_PRODUCTS ⟨f, 0⟩).2).2).1.1 := rfl

theorem generate_products_price (f : Nat → Nat) (t : Int) :
    ∀ p ∈ (generate f t).products, PRICE_MIN_C ≤ p.price :=
  genProducts_price NUM_PRODUCTS 1 ⟨f, 0⟩

theorem generate_products_ne_nil (f : Nat → Nat) (t : Int) :
    (generate f t).products ≠ [] := by
  rw [generate_products_def]
  apply List.ne_nil_of_length_pos
  rw [genProducts_length]
  norm_num [NUM_PRODUCTS]

theorem orderPhase_inv (prods : List Product) (hp : prods ≠ [])
    (hprice : ∀ p ∈ prods, PRICE_MIN_C ≤ p.price) (g : Gen) :
    TInv prods (orderPhase prods g).1 1414 ∧
    ∃ no,
      (orderPhase prods g).1.1 = (genOrdersFrom prods 1 NUM_ORDERS g).1.1 ++ no ∧
      (∀ o ∈ no, DupeGood prods (orderPhase prods g).1.1 (orderPhase prods g).1.2.1 o) := by
  have hbase := genOrdersFrom_TInv prods hp hprice NUM_ORDERS g
  have hm : 0 < NUM_ORDERS := by norm_num [NUM_ORDERS]
  obtain ⟨hT, no, ni, hno, hni, hbnd, hgood⟩ :=
    genDupes_inv prods hp hprice (max 1 (NUM_ORDERS / 100))
      (genOrdersFrom prods 1 NUM_ORDERS g).1 NUM_ORDERS
      (genOrdersFrom prods 1 NUM_ORDERS g).2 hbase hm
  have harith : NUM_ORDERS + max 1 (NUM_ORDERS / 100) = 1414 := by decide
  refine ⟨?_, no, hno, ?_⟩
  · rw [← harith]
    exact hT
  · intro o hmem
    exact (hgood o hmem).2

theorem generate_TInv (f : Nat → Nat) (t : Int) :
    TInv (generate f t).products
      ((generate f t).orders, (generate f t).order_items, (generate f t).shipments)
      1414 := by
  have hp : (genProducts 1 NUM_PRODUCTS (⟨f, 0⟩ : Gen)).1 ≠ [] :=
    generate_products_ne_nil f t
  exact (orderPhase_inv _ hp (genProducts_price NUM_PRODUCTS 1 ⟨f, 0⟩)
    (custPhase t (genProducts 1 NUM_PRODUCTS ⟨f, 0⟩).2).2).1

theorem generate_orders_map_id (f : Nat → Nat) (t : Int) :
    (generate f t).orders.map Order.order_id = List.range' 1 1414 :=
  (generate_TInv f t).1

theorem generate_orders_length (f : Nat → Nat) (t : Int) :
    (generate f t).orders.length = 1414 := by
  have := congrArg List.length (generate_orders_map_id f t)
  simpa using this

theorem generate_dupes (f : Nat → Nat) (t : Int) :
    ∀ o ∈ (generate f t).orders.drop NUM_ORDERS,
      DupeGood (generate f t).products (generate f t).orders
        (generate f t).order_items o := by
  have hp : (genProducts 1 NUM_PRODUCTS (⟨f, 0⟩ : Gen)).1 ≠ [] :=
    generate_products_ne_nil f t
  obtain ⟨hT, no, hno, hgood⟩ := orderPhase_inv _ hp
    (genProducts_price NUM_PRODUCTS 1 ⟨f, 0⟩)
    (custPhase t (genProducts 1 NUM_PRODUCTS ⟨f, 0⟩).2).2
  intro o hmem
  have hbase := genOrdersFrom_TInv _ hp (genProducts_price NUM_PRODUCTS 1 ⟨f, 0⟩)
    NUM_ORDERS (custPhase t (genProducts 1 NUM_PRODUCTS ⟨f, 0⟩).2).2
  have hblen : (genOrdersFrom (genProducts 1 NUM_PRODUCTS ⟨f, 0⟩).1 1 NUM_ORDERS
      (custPhase t (genProducts 1 NUM_PRODUCTS ⟨f, 0⟩).2).2).1.1.length = NUM_ORDERS := by
    have := congrArg List.length hbase.1
    simpa using this
  have hdl := List.drop_left (genOrdersFrom (genProducts 1 NUM_PRODUCTS ⟨f, 0⟩).1 1
    NUM_ORDERS (custPhase t (genProducts 1 NUM_PRODUCTS ⟨f, 0⟩).2).2).1.1 no
  rw [hblen] at hdl
  rw [generate_orders_def, hno, hdl] at hmem
  exact hgood o hmem

theorem generate_customers_length (f : Nat → Nat) (t : Int) :
    (generate f t).customers.length = NUM_CUSTOMERS := by
  rw [generate_customers_def, applyTotals_length, custPhase_length]

theorem generate_customers_map_id (f : Nat → Nat) (t : Int) :
    (generate f t).customers.map Customer.customer_id = List.range' 1 NUM_CUSTOMERS := by
  rw [generate_customers_def, applyTotals_map_id, custPhase_map_id]

theorem generate_customers_total (f : Nat → Nat) (t : Int) :
    ∀ c ∈ (generate f t).customers,
      c.total_spent = round2c (sumFor (generate f t).orders c.customer_id) := by
  rw [generate_customers_def, generate_orders_def]
  exact applyTotals_spec _ _ (custPhase_total t _)

theorem generate_map_dob (f : Nat → Nat) (t : Int) :
    (generate f t).customers.map Customer.date_of_birth =
      (genCustomersFrom t 1 NUM_CUSTOMERS
        (genProducts 1 NUM_PRODUCTS ⟨f, 0⟩).2).1.map Customer.date_of_birth := by
  rw [generate_customers_def, applyTotals_map_dob, custPhase_map_dob]

/-! ## Remaining structural equalities of the pipeline -/

theorem generate_items_def (f : Nat → Nat) (t : Int) :
    (generate f t).order_items = (orderPhase (genProducts 1 NUM_PRODUCTS ⟨f, 0⟩).1
      (custPhase t (genProducts 1 NUM_PRODUCTS ⟨f, 0⟩).2).2).1.2.1 := by
  simp only [generate]

theorem generate_shipments_def (f : Nat → Nat) (t : Int) :
    (generate f t).shipments = (orderPhase (genProducts 1 NUM_PRODUCTS ⟨f, 0⟩).1
      (custPhase t (genProducts 1 NUM_PRODUCTS ⟨f, 0⟩).2).2).1.2.2 := by
  simp only [generate]

theorem generate_categories_def (f : Nat → Nat) (t : Int) :
    (generate f t).categories = categoryRows := rfl

theorem genCustomersFrom_cons (t : Int) (cid k : Nat) (g : Gen) :
    (genCustomersFrom t cid (k + 1) g).1 =
      (genCustomer t cid g).1 ::
        (genCustomersFrom t (cid + 1) k (genCustomer t cid g).2).1 := rfl

/-! ## Stream-function invariance (`.f` is never changed, only the position) -/

theorem genCustomersFrom_f (t : Int) : ∀ (k cid : Nat) (g : Gen),
    (genCustomersFrom t cid k g).2.f = g.f := by
  intro k
  induction k with
  | zero => intro cid g; rfl
  | succ k ih => intro cid g; exact ih (cid + 1) _

theorem sampleIdx_f : ∀ (k : Nat) (l : List Nat) (g : Gen),
    (sampleIdx l k g).2.f = g.f := by
  intro k
  induction k with
  | zero => intro l g; rfl
  | succ k ih => intro l g; exact ih _ _

theorem applyMissingAll_f : ∀ (idxs : List Nat) (cs : List Customer) (g : Gen),
    (applyMissingAll cs idxs g).2.f = g.f := by
  intro idxs
  induction idxs with
  | nil => intro cs g; rfl
  | cons i rest ih => intro cs g; exact ih _ _

theorem applyDupAll_f : ∀ (idxs : List Nat) (cs : List Customer) (g : Gen),
    (applyDupAll cs idxs g).2.f = g.f := by
  intro idxs
  induction idxs with
  | nil => intro cs g; rfl
  | cons i rest ih => intro cs g; exact ih _ _

theorem custPhase_f (t : Int) (g : Gen) : (custPhase t g).2.f = g.f := by
  simp only [custPhase]
  rw [applyDupAll_f, sampleIdx_f, applyMissingAll_f, sampleIdx_f, genCustomersFrom_f]

theorem genItems_f (prods : List Product) (oid : Nat) : ∀ (k itemNo : Nat) (g : Gen),
    (genItems prods oid itemNo k g).2.f = g.f := by
  intro k
  induction k with
  | zero => intro itemNo g; rfl
  | succ k ih => intro itemNo g; exact ih (itemNo + 1) _

/-! ## Nonemptiness of the shipment table on the all-zero stream -/

theorem genShip_ne_nil_zero (odate oid : Nat) (g : Gen) (hf : g.f = fun _ => 0) :
    (genShip odate oid g).1 ≠ [] := by
  simp only [genShip]
  have h0 : (Gen.next g).1 % 100 < 80 := by
    simp [Gen.next, hf]
  rw [if_pos h0]
  simp

theorem genOrder_ships_ne_nil_zero (prods : List Product) (oid : Nat) (g : Gen)
    (hf : g.f = fun _ => 0) : (genOrder prods oid g).1.2.2 ≠ [] := by
  simp only [genOrder]
  apply genShip_ne_nil_zero
  rw [genItems_f]
  exact hf

theorem genOrdersFrom_ships_ne_nil_zero (prods : List Product) (k : Nat) (hk : 0 < k)
    (oid : Nat) (g : Gen) (hf : g.f = fun _ => 0) :
    (genOrdersFrom prods oid k g).1.2.2 ≠ [] := by
  cases k with
  | zero => omega
  | succ k =>
    simp only [genOrdersFrom]
    intro hcon
    exact genOrder_ships_ne_nil_zero prods oid g hf (List.append_eq_nil.mp hcon).1

theorem genDupes_ships_prefix (prods : List Product) :
    ∀ (k : Nat) (t : List Order × List OrderItem × List Shipment) (oid : Nat) (g : Gen),
    ∃ rest, (genDupes prods t oid k g).1.2.2 = t.2.2 ++ rest := by
  intro k
  induction k with
  | zero => intro t oid g; exact ⟨[], by simp [genDupes]⟩
  | succ k ih =>
    intro t oid g
    obtain ⟨rest, hr⟩ := ih (t.1 ++ [(genDupe prods t.1 oid g).1.1],
      t.2.1 ++ [(genDupe prods t.1 oid g).1.2.1],
      t.2.2 ++ (genDupe prods t.1 oid g).1.2.2) (oid + 1) (genDupe prods t.1 oid g).2
    exact ⟨(genDupe prods t.1 oid g).1.2.2 ++ rest, by
      show (genDupes prods _ (oid + 1) k _).1.2.2 = _
      rw [hr]
      simp [List.append_assoc]⟩

theorem generate_shipments_ne_nil (t : Int) :
    (generate (fun _ => 0) t).shipments ≠ [] := by
  rw [generate_shipments_def]
  show (genDupes _ _ _ _ _).1.2.2 ≠ []
  obtain ⟨rest, hr⟩ := genDupes_ships_prefix (genProducts 1 NUM_PRODUCTS ⟨fun _ => 0, 0⟩).1
    (max 1 (NUM_ORDERS / 100))
    (genOrdersFrom (genProducts 1 NUM_PRODUCTS ⟨fun _ => 0, 0⟩).1 1 NUM_ORDERS
      (custPhase t (genProducts 1 NUM_PRODUCTS ⟨fun _ => 0, 0⟩).2).2).1
    (NUM_ORDERS + 1)
    (genOrdersFrom (genProducts 1 NUM_PRODUCTS ⟨fun _ => 0, 0⟩).1 1 NUM_ORDERS
      (custPhase t (genProducts 1 NUM_PRODUCTS ⟨fun _ => 0, 0⟩).2).2).2
  rw [hr]
  intro hcon
  have hbase : (genOrdersFrom (genProducts 1 NUM_PRODUCTS ⟨fun _ => 0, 0⟩).1 1 NUM_ORDERS
      (custPhase t (genProducts 1 NUM_PRODUCTS ⟨fun _ => 0, 0⟩).2).2).1.2.2 ≠ [] := by
    apply genOrdersFrom_ships_ne_nil_zero _ _ (by norm_num [NUM_ORDERS])
    rw [custPhase_f, genProducts_f]
  exact hbase (List.append_eq_nil.mp hcon).1

theorem generate_items_ne_nil (f : Nat → Nat) (t : Int) :
    (generate f t).order_items ≠ [] := by
  obtain ⟨h1, h2, h3, h4, h5⟩ := generate_TInv f t
  have ho : (generate f t).orders.getD 0 default ∈ (generate f t).orders :=
    getD_mem_of_lt _ _ _ (by rw [generate_orders_length]; omega)
  have hne := (h3 _ ho).2.2.2.2
  intro hcon
  apply hne
  simp [itemsOf, hcon]

/-! ## Claim theorems -/

/-- C1 (amended): two runs with the same seeded random stream produce
identical Categories, Products, Orders, Order_Items and Shipments tables
regardless of the current date, and a fully identical database when the
current date of the two runs is also the same.  The seed alone does not
reproduce `Customers.date_of_birth`, which reads `datetime.now()`
(see `spec_c1_counterexample`). -/
theorem spec_c1_determinism (f : Nat → Nat) (t t' : Int) :
    (generate f t).categories = (generate f t').categories ∧
    (generate f t).products = (generate f t').products ∧
    (generate f t).orders = (generate f t').orders ∧
    (generate f t).order_items = (generate f t').order_items ∧
    (generate f t).shipments = (generate f t').shipments ∧
    (t = t' → generate f t = generate f t') := by
  refine ⟨rfl, rfl, ?_, ?_, ?_, fun h => by rw [h]⟩
  · rw [generate_orders_def, generate_orders_def, custPhase_snd t t']
  · rw [generate_items_def, generate_items_def, custPhase_snd t t']
  · rw [generate_shipments_def, generate_shipments_def, custPhase_snd t t']

/-- C1 counterexample: the claim as stated is false.  With the same seeded
stream (the constant-zero stream) but runs on two different days
(`today = 0` and `today = 1`), the generated databases differ — the first
customer's `date_of_birth` is `today - 6570` days. -/
theorem spec_c1_counterexample :
    generate (fun _ => 0) 0 ≠ generate (fun _ => 0) 1 := by
  intro h
  have hd := congrArg (fun db => (db.customers.map Customer.date_of_birth).getD 0 0) h
  simp only at hd
  rw [generate_map_dob, generate_map_dob] at hd
  rw [show NUM_CUSTOMERS = 999 + 1 from rfl] at hd
  rw [genCustomersFrom_cons 0 1 999, genCustomersFrom_cons 1 1 999] at hd
  rw [List.map_cons, List.map_cons, List.getD_cons_zero, List.getD_cons_zero] at hd
  rw [genCustomer_dob, genCustomer_dob] at hd
  rw [genProducts_f] at hd
  norm_num at hd

/-- C1 witness: the amended determinism theorem applied at a concrete
stream, with the same-current-date hypothesis discharged. -/
theorem spec_c1_witness :
    (generate (fun _ => 0) 0).orders = (generate (fun _ => 0) 5).orders ∧
    generate (fun _ => 0) 3 = generate (fun _ => 0) 3 :=
  ⟨(spec_c1_determinism (fun _ => 0) 0 5).2.2.1,
   (spec_c1_determinism (fun _ => 0) 3 3).2.2.2.2.2 rfl⟩

/-- C2: for every generated order (base and near-duplicate), the stored
order total equals the sum of the line totals of that order's items,
rounded to 2 decimals, and is nonnegative. -/
theorem spec_c2_order_totals (f : Nat → Nat) (t : Int) :
    ∀ o ∈ (generate f t).orders,
      o.order_total = round2c (((itemsOf (generate f t).order_items
        o.order_id).map OrderItem.line_total).sum) ∧
      0 ≤ o.order_total := by
  intro o ho
  obtain ⟨h1, h2, h3, h4, h5⟩ := generate_TInv f t
  exact ⟨(h3 o ho).1, Nat.zero_le _⟩

/-- C2 witness: the first generated order on the constant-zero stream. -/
theorem spec_c2_witness :
    ((generate (fun _ => 0) 0).orders.getD 0 default).order_total =
      round2c (((itemsOf (generate (fun _ => 0) 0).order_items
        ((generate (fun _ => 0) 0).orders.getD 0 default).order_id).map
        OrderItem.line_total).sum) ∧
    0 ≤ ((generate (fun _ => 0) 0).orders.getD 0 default).order_total :=
  spec_c2_order_totals (fun _ => 0) 0 _
    (getD_mem_of_lt _ _ _ (by rw [generate_orders_length]; omega))

/-- C3: after the aggregation pass, each of the 1000 customers carries
`total_spent` equal to the rounded sum of `order_total` over their orders,
and a customer with no orders carries exactly 0. -/
theorem spec_c3_total_spent (f : Nat → Nat) (t : Int) :
    (generate f t).customers.length = 1000 ∧
    ∀ c ∈ (generate f t).customers,
      c.total_spent = round2c (sumFor (generate f t).orders c.customer_id) ∧
      ((generate f t).orders.filter
          (fun o => o.customer_id == c.customer_id) = [] →
        c.total_spent = 0) := by
  refine ⟨generate_customers_length f t, ?_⟩
  intro c hc
  refine ⟨generate_customers_total f t c hc, ?_⟩
  intro hnil
  rw [generate_customers_total f t c hc]
  show round2c (sumFor _ _) = 0
  rw [sumFor, hnil]
  rfl

/-- C3 witness: the first generated customer on the constant-zero stream. -/
theorem spec_c3_witness :
    ((generate (fun _ => 0) 0).customers.getD 0 default).total_spent =
      round2c (sumFor (generate (fun _ => 0) 0).orders
        ((generate (fun _ => 0) 0).customers.getD 0 default).customer_id) :=
  ((spec_c3_total_spent (fun _ => 0) 0).2 _
    (getD_mem_of_lt _ _ _
      (by rw [generate_customers_length]; norm_num [NUM_CUSTOMERS]))).1

/-- C4 counterexample: the promo pool passed to `random.choice` at line 206
is not a five-element pool with a 3/5 chance of null: it has six elements,
of which three are null (so the null probability is 3/6 = 1/2), and it is
not the claimed five-element list. -/
theorem spec_c4_counterexample :
    promoPool.length ≠ 5 ∧
    promoPool.length = 6 ∧
    promoPool.count (none : Option String) = 3 ∧
    promoPool ≠ [some "NEW10", some "FREESHIP", some "SUMMER20", none, none] := by
  decide

/-- C4 (amended): each base order's promo code is drawn uniformly from the
six-element list `[null, NEW10, FREESHIP, SUMMER20, null, null]` — three of
whose six slots are null, so a null promo code has probability 3/6 = 1/2 —
and every generated order's promo code comes from this pool. -/
theorem spec_c4_promo_pool (f : Nat → Nat) (t : Int) :
    promoPool = [none, some "NEW10", some "FREESHIP", some "SUMMER20",
      none, none] ∧
    promoPool.length = 6 ∧
    promoPool.count (none : Option String) * 2 = promoPool.length ∧
    (∀ n : Nat, promoPool.getD (n % promoPool.length) none ∈ promoPool) ∧
    ∀ o ∈ (generate f t).orders, o.promo_code ∈ promoPool := by
  refine ⟨rfl, rfl, rfl, ?_, ?_⟩
  · intro n
    exact getD_mem_of_lt _ _ _ (Nat.mod_lt _ (by norm_num [promoPool]))
  · intro o ho
    obtain ⟨h1, h2, h3, h4, h5⟩ := generate_TInv f t
    exact (h3 o ho).2.2.2.1

/-- C4 witness: the promo-code membership at the first generated order on
the constant-zero stream. -/
theorem spec_c4_witness :
    ((generate (fun _ => 0) 0).orders.getD 0 default).promo_code ∈ promoPool :=
  (spec_c4_promo_pool (fun _ => 0) 0).2.2.2.2 _
    (getD_mem_of_lt _ _ _ (by rw [generate_orders_length]; omega))

/-- C5: for every shipment, an absent shipped date forces an absent
delivery date, and a present delivery date implies a present shipped date
with `shipped_date ≤ delivery_date`. -/
theorem spec_c5_shipment_dates (f : Nat → Nat) (t : Int) :
    ∀ sh ∈ (generate f t).shipments,
      (sh.shipped_date = none → sh.delivery_date = none) ∧
      (∀ dd, sh.delivery_date = some dd →
        ∃ sd, sh.shipped_date = some sd ∧ sd ≤ dd) := by
  intro sh hsh
  exact ((generate_TInv f t).2.2.2.2 sh hsh).2

/-- C5 witness: the first shipment generated on the constant-zero stream
(on that stream the first order does get a shipment record). -/
theorem spec_c5_witness :
    (((generate (fun _ => 0) 0).shipments.getD 0 default).shipped_date = none →
      ((generate (fun _ => 0) 0).shipments.getD 0 default).delivery_date = none) ∧
    (∀ dd, ((generate (fun _ => 0) 0).shipments.getD 0 default).delivery_date =
        some dd →
      ∃ sd, ((generate (fun _ => 0) 0).shipments.getD 0 default).shipped_date =
        some sd ∧ sd ≤ dd) :=
  spec_c5_shipment_dates (fun _ => 0) 0 _
    (getD_mem_of_lt _ _ _ (List.length_pos.mpr (generate_shipments_ne_nil 0)))

/-- C6: the generator produces 1400 base orders plus
`max(1, int(0.01 * 1400)) = 14` near-duplicates, 1414 Order rows in all,
with order ids forming the strictly increasing sequence `1, …, 1414` that
continues from the base orders into the near-duplicates. -/
theorem spec_c6_order_counts (f : Nat → Nat) (t : Int) :
    NUM_ORDERS = 1400 ∧
    max 1 (NUM_ORDERS / 100) = 14 ∧
    (generate f t).orders.length = 1400 + 14 ∧
    (generate f t).orders.map Order.order_id = List.range' 1 1414 :=
  ⟨rfl, rfl, generate_orders_length f t, generate_orders_map_id f t⟩

/-- C7: every near-duplicate order (the orders after the first 1400) copies
the customer id, order date and promo code of an earlier existing order,
carries exactly one order item with item number 1 and quantity 1 whose
product comes from the catalog, and its order total is that single item's
line total. -/
theorem spec_c7_near_duplicates (f : Nat → Nat) (t : Int) :
    ∀ o ∈ (generate f t).orders.drop NUM_ORDERS,
      (∃ src ∈ (generate f t).orders, src.order_id < o.order_id ∧
        src.customer_id = o.customer_id ∧ src.order_date = o.order_date ∧
        src.promo_code = o.promo_code) ∧
      ∃ it, itemsOf (generate f t).order_items o.order_id = [it] ∧
        it.item_no = 1 ∧ it.quantity = 1 ∧
        it.product_id ∈ (generate f t).products.map Product.product_id ∧
        o.order_total = it.line_total := by
  intro o ho
  obtain ⟨⟨src, hsrc, hlt, hc, hd, hpr⟩, it, hit, hno1, hq1, ⟨p, hpmem, hpid, hup⟩, htot⟩ :=
    generate_dupes f t o ho
  exact ⟨⟨src, hsrc, hlt, hc, hd, hpr⟩, it, hit, hno1, hq1,
    by rw [hpid]; exact List.mem_map_of_mem _ hpmem, htot⟩

/-- C7 witness: the first near-duplicate order on the constant-zero stream. -/
theorem spec_c7_witness :
    ∃ src ∈ (generate (fun _ => 0) 0).orders,
      src.order_id <
        (((generate (fun _ => 0) 0).orders.drop NUM_ORDERS).getD 0 default).order_id ∧
      src.customer_id =
        (((generate (fun _ => 0) 0).orders.drop NUM_ORDERS).getD 0 default).customer_id ∧
      src.order_date =
        (((generate (fun _ => 0) 0).orders.drop NUM_ORDERS).getD 0 default).order_date ∧
      src.promo_code =
        (((generate (fun _ => 0) 0).orders.drop NUM_ORDERS).getD 0 default).promo_code :=
  (spec_c7_near_duplicates (fun _ => 0) 0 _
    (getD_mem_of_lt _ _ _
      (by rw [List.length_drop, generate_orders_length]; norm_num [NUM_ORDERS]))).1

/-- Convenience restatement of the order-goodness part of the pipeline
invariant with the projections spelled out. -/
theorem generate_ordergood (f : Nat → Nat) (t : Int) :
    ∀ o ∈ (generate f t).orders, OrderGood (generate f t).order_items o :=
  (generate_TInv f t).2.2.1

/-- Convenience restatement of the item-goodness part of the pipeline
invariant with the projections spelled out. -/
theorem generate_itemgood (f : Nat → Nat) (t : Int) :
    ∀ it ∈ (generate f t).order_items, ItemGood (generate f t).products it :=
  (generate_TInv f t).2.2.2.1

/-- Convenience restatement of the item-id bounds of the pipeline
invariant with the projections spelled out. -/
theorem generate_item_bounds (f : Nat → Nat) (t : Int) :
    ∀ it ∈ (generate f t).order_items,
      1 ≤ it.order_id ∧ it.order_id ≤ 1414 :=
  (generate_TInv f t).2.1

/-- Convenience restatement of the shipment part of the pipeline invariant
with the projections spelled out. -/
theorem generate_shipok (f : Nat → Nat) (t : Int) :
    ∀ sh ∈ (generate f t).shipments,
      sh.order_id ∈ (generate f t).orders.map Order.order_id ∧ shipOk sh :=
  (generate_TInv f t).2.2.2.2

/-- C8: referential integrity — every order's customer id is one of the
1000 generated customer ids, every order item references a generated order
and one of the 300 generated products, and every shipment references a
generated order. -/
theorem spec_c8_referential_integrity (f : Nat → Nat) (t : Int) :
    (generate f t).customers.length = 1000 ∧
    (generate f t).products.length = 300 ∧
    (∀ o ∈ (generate f t).orders,
      o.customer_id ∈ (generate f t).customers.map Customer.customer_id) ∧
    (∀ it ∈ (generate f t).order_items,
      it.order_id ∈ (generate f t).orders.map Order.order_id ∧
      it.product_id ∈ (generate f t).products.map Product.product_id) ∧
    (∀ sh ∈ (generate f t).shipments,
      sh.order_id ∈ (generate f t).orders.map Order.order_id) := by
  refine ⟨generate_customers_length f t, ?_, ?_, ?_, ?_⟩
  · rw [generate_products_def, genProducts_length]
    rfl
  · intro o ho
    rw [generate_customers_map_id]
    have hb := generate_ordergood f t o ho
    have hub := hb.2.2.1
    exact List.mem_range'_1.mpr ⟨hb.2.1, by omega⟩
  · intro it hit
    constructor
    · rw [generate_orders_map_id]
      have hb := generate_item_bounds f t it hit
      exact List.mem_range'_1.mpr ⟨hb.1, by omega⟩
    · obtain ⟨⟨p, hpmem, hpid, hup⟩, _⟩ := generate_itemgood f t it hit
      rw [hpid]
      exact List.mem_map_of_mem _ hpmem
  · intro sh hsh
    exact (generate_shipok f t sh hsh).1

/-- C8 witness: the first generated order's customer id on the
constant-zero stream is a generated customer id. -/
theorem spec_c8_witness :
    ((generate (fun _ => 0) 0).orders.getD 0 default).customer_id ∈
      (generate (fun _ => 0) 0).customers.map Customer.customer_id :=
  (spec_c8_referential_integrity (fun _ => 0) 0).2.2.1 _
    (getD_mem_of_lt _ _ _ (by rw [generate_orders_length]; omega))

/-- C9: every generated order total is at least 450 cents (= 4.50, the
worst case `round(5.00 * 1 * 0.9, 2)`), hence strictly positive, and every
line total is at least 450 cents, hence nonnegative — so the
`order_total >= 0` and `line_total >= 0` CHECK constraints can never fire. -/
theorem spec_c9_positive_totals (f : Nat → Nat) (t : Int) :
    (∀ o ∈ (generate f t).orders, 450 ≤ o.order_total ∧ 0 < o.order_total) ∧
    (∀ it ∈ (generate f t).order_items,
      450 ≤ it.line_total ∧ 0 ≤ it.line_total) := by
  constructor
  · intro o ho
    obtain ⟨ht, _, _, _, hne⟩ := generate_ordergood f t o ho
    have hall : ∀ x ∈ (itemsOf (generate f t).order_items o.order_id).map
        OrderItem.line_total, 450 ≤ x := by
      intro x hx
      obtain ⟨it, hitmem, hxe⟩ := List.mem_map.mp hx
      rw [← hxe]
      have hitm : it ∈ (generate f t).order_items :=
        (List.mem_filter.mp hitmem).1
      exact (generate_itemgood f t it hitm).2.2.2
    have hmapne : (itemsOf (generate f t).order_items o.order_id).map
        OrderItem.line_total ≠ [] := by
      intro hcon
      exact hne (List.map_eq_nil_iff.mp hcon)
    have hsum := sum_ge_of_nonempty _ 450 hmapne hall
    constructor
    · rw [ht]
      simp only [round2c]
      exact hsum
    · rw [ht]
      simp only [round2c]
      exact Nat.lt_of_lt_of_le (by norm_num) hsum
  · intro it hit
    exact ⟨(generate_itemgood f t it hit).2.2.2, Nat.zero_le _⟩

/-- C9 witness: the first generated order and order item on the
constant-zero stream. -/
theorem spec_c9_witness :
    (450 ≤ ((generate (fun _ => 0) 0).orders.getD 0 default).order_total ∧
      0 < ((generate (fun _ => 0) 0).orders.getD 0 default).order_total) ∧
    (450 ≤ ((generate (fun _ => 0) 0).order_items.getD 0 default).line_total ∧
      0 ≤ ((generate (fun _ => 0) 0).order_items.getD 0 default).line_total) :=
  ⟨(spec_c9_positive_totals (fun _ => 0) 0).1 _
      (getD_mem_of_lt _ _ _ (by rw [generate_orders_length]; omega)),
   (spec_c9_positive_totals (fun _ => 0) 0).2 _
      (getD_mem_of_lt _ _ _
        (List.length_pos.mpr (generate_items_ne_nil (fun _ => 0) 0)))⟩

/-- Field values across a `map`-preserving transformation agree position
by position. -/
theorem map_frame_getD {β : Type} (fn : Customer → β) (l l2 : List Customer)
    (h : l.map fn = l2.map fn) (pos : Nat) :
    fn (l.getD pos default) = fn (l2.getD pos default) := by
  have h1 := @List.getD_map Customer β l default pos fn
  have h2 := @List.getD_map Customer β l2 default pos fn
  rw [← h1, ← h2, h]

/-- C10: the duplicate-identity noise step can change only the
`customer_name` and `email` fields: at every position the other eight
fields are unchanged, and records at positions outside the selected index
list are entirely unchanged. -/
theorem spec_c10_dup_noise_frame (cs : List Customer) (idxs : List Nat) (g : Gen) :
    (applyDupAll cs idxs g).1.length = cs.length ∧
    (∀ pos : Nat,
      ((applyDupAll cs idxs g).1.getD pos default).customer_id =
        (cs.getD pos default).customer_id ∧
      ((applyDupAll cs idxs g).1.getD pos default).gender =
        (cs.getD pos default).gender ∧
      ((applyDupAll cs idxs g).1.getD pos default).date_of_birth =
        (cs.getD pos default).date_of_birth ∧
      ((applyDupAll cs idxs g).1.getD pos default).phone_number =
        (cs.getD pos default).phone_number ∧
      ((applyDupAll cs idxs g).1.getD pos default).address =
        (cs.getD pos default).address ∧
      ((applyDupAll cs idxs g).1.getD pos default).customer_tier =
        (cs.getD pos default).customer_tier ∧
      ((applyDupAll cs idxs g).1.getD pos default).registration_date =
        (cs.getD pos default).registration_date ∧
      ((applyDupAll cs idxs g).1.getD pos default).total_spent =
        (cs.getD pos default).total_spent) ∧
    (∀ pos : Nat, pos ∉ idxs →
      (applyDupAll cs idxs g).1.getD pos default = cs.getD pos default) := by
  have hid := applyDupAll_map_frame Customer.customer_id
    (fun c x e => rfl) (fun c x => rfl) idxs cs g
  refine ⟨?_, ?_, fun pos h => applyDupAll_getD_not_mem idxs cs g pos h⟩
  · have := congrArg List.length hid
    simpa using this
  · intro pos
    exact ⟨map_frame_getD _ _ _ hid pos,
      map_frame_getD _ _ _ (applyDupAll_map_frame Customer.gender
        (fun c x e => rfl) (fun c x => rfl) idxs cs g) pos,
      map_frame_getD _ _ _ (applyDupAll_map_frame Customer.date_of_birth
        (fun c x e => rfl) (fun c x => rfl) idxs cs g) pos,
      map_frame_getD _ _ _ (applyDupAll_map_frame Customer.phone_number
        (fun c x e => rfl) (fun c x => rfl) idxs cs g) pos,
      map_frame_getD _ _ _ (applyDupAll_map_frame Customer.address
        (fun c x e => rfl) (fun c x => rfl) idxs cs g) pos,
      map_frame_getD _ _ _ (applyDupAll_map_frame Customer.customer_tier
        (fun c x e => rfl) (fun c x => rfl) idxs cs g) pos,
      map_frame_getD _ _ _ (applyDupAll_map_frame Customer.registration_date
        (fun c x e => rfl) (fun c x => rfl) idxs cs g) pos,
      map_frame_getD _ _ _ (applyDupAll_map_frame Customer.total_spent
        (fun c x e => rfl) (fun c x => rfl) idxs cs g) pos⟩

/-- C10 witness: a concrete run of the noise loop leaves an unselected
position untouched. -/
theorem spec_c10_witness :
    (1 : Nat) ∉ [0] ∧
    (applyDupAll [default] [0] ⟨fun _ => 0, 0⟩).1.getD 1 default =
      ([default] : List Customer).getD 1 default :=
  ⟨by decide,
   (spec_c10_dup_noise_frame [default] [0] ⟨fun _ => 0, 0⟩).2.2 1 (by decide)⟩
